import Mathlib

/-!
Shallow embedding of the request-admission layer of the superbowl-lx
repository: the per-client rate limiter and per-prompt response cache of
src/api/analyze.py, the serverless analyze handler (handler.do_POST in
src/api/analyze.py), and the local-server analyze handler
(Handler._handle_analyze in src/server.py).

Time is modelled as an integer number of seconds; the file-backed JSON
dictionaries become association lists threaded explicitly through each
operation; the upstream HTTP call becomes an oracle value passed to the
handler.
-/

namespace SuperbowlLX

/-! ### SHA-256, embedding hashlib.sha256(prompt.encode()).hexdigest() -/

def w32 : Nat := 4294967296

def rotr (n x : Nat) : Nat := ((x >>> n) ||| (x <<< (32 - n))) % w32

def bigSigma0 (x : Nat) : Nat := rotr 2 x ^^^ rotr 13 x ^^^ rotr 22 x

def bigSigma1 (x : Nat) : Nat := rotr 6 x ^^^ rotr 11 x ^^^ rotr 25 x

def smallSigma0 (x : Nat) : Nat := rotr 7 x ^^^ rotr 18 x ^^^ (x >>> 3)

def smallSigma1 (x : Nat) : Nat := rotr 17 x ^^^ rotr 19 x ^^^ (x >>> 10)

def shaCh (e f g : Nat) : Nat := (e &&& f) ^^^ (((w32 - 1) ^^^ e) &&& g)

def shaMaj (a b c : Nat) : Nat := (a &&& b) ^^^ (a &&& c) ^^^ (b &&& c)

/-- The 64 SHA-256 round constants of FIPS 180-4, in decimal. -/
def shaK : List Nat := [
  1116352408, 1899447441, 3049323471, 3921009573, 961987163, 1508970993,
  2453635748, 2870763221, 3624381080, 310598401, 607225278, 1426881987,
  1925078388, 2162078206, 2614888103, 3248222580, 3835390401, 4022224774,
  264347078, 604807628, 770255983, 1249150122, 1555081692, 1996064986,
  2554220882, 2821834349, 2952996808, 3210313671, 3336571891, 3584528711,
  113926993, 338241895, 666307205, 773529912, 1294757372, 1396182291,
  1695183700, 1986661051, 2177026350, 2456956037, 2730485921, 2820302411,
  3259730800, 3345764771, 3516065817, 3600352804, 4094571909, 275423344,
  430227734, 506948616, 659060556, 883997877, 958139571, 1322822218,
  1537002063, 1747873779, 1955562222, 2024104815, 2227730452, 2361852424,
  2428436474, 2756734187, 3204031479, 3329325298]

/-- The eight SHA-256 initial hash values of FIPS 180-4, in decimal. -/
def shaInit : List Nat :=
  [1779033703, 3144134277, 1013904242, 2773480762,
   1359893119, 2600822924, 528734635, 1541459225]

/-- Zero-defaulted list indexing, used by the SHA-256 word-array accesses. -/
def nth : List Nat → Nat → Nat
  | [], _ => 0
  | x :: _, 0 => x
  | _ :: t, i + 1 => nth t i

/-- UTF-8 encoding of one Unicode scalar value, as a list of bytes
(prompt.encode() in Python encodes to UTF-8). -/
def utf8Encode (c : Nat) : List Nat :=
  if c < 0x80 then [c]
  else if c < 0x800 then
    [0xC0 ||| (c >>> 6), 0x80 ||| (c &&& 0x3F)]
  else if c < 0x10000 then
    [0xE0 ||| (c >>> 12), 0x80 ||| ((c >>> 6) &&& 0x3F), 0x80 ||| (c &&& 0x3F)]
  else
    [0xF0 ||| (c >>> 18), 0x80 ||| ((c >>> 12) &&& 0x3F),
     0x80 ||| ((c >>> 6) &&& 0x3F), 0x80 ||| (c &&& 0x3F)]

def strBytes (s : String) : List Nat :=
  (s.data.map (fun c => utf8Encode c.toNat)).flatten

/-- SHA-256 padding: append 0x80, zero bytes to reach 56 mod 64, then the
message bit length as a 64-bit big-endian integer. -/
def sha256Pad (msg : List Nat) : List Nat :=
  let len := msg.length
  let bitLen := 8 * len
  let padZeros := (119 - len % 64) % 64
  msg ++ [0x80] ++ List.replicate padZeros 0 ++
    [(bitLen >>> 56) % 256, (bitLen >>> 48) % 256, (bitLen >>> 40) % 256, (bitLen >>> 32) % 256,
     (bitLen >>> 24) % 256, (bitLen >>> 16) % 256, (bitLen >>> 8) % 256, bitLen % 256]

/-- Big-endian packing of bytes into 32-bit words. -/
def bytesToWords : List Nat → List Nat
  | a :: b :: c :: d :: rest => (((a * 256 + b) * 256 + c) * 256 + d) :: bytesToWords rest
  | _ => []

/-- Split a word list into 16-word blocks (the padded stream is always a
multiple of 16 words). -/
def chunk16 : List Nat → List (List Nat)
  | w0 :: w1 :: w2 :: w3 :: w4 :: w5 :: w6 :: w7 ::
    w8 :: w9 :: w10 :: w11 :: w12 :: w13 :: w14 :: w15 :: rest =>
      [w0, w1, w2, w3, w4, w5, w6, w7, w8, w9, w10, w11, w12, w13, w14, w15] :: chunk16 rest
  | _ => []

/-- Extend a 16-word block to the 64-word message schedule. -/
def extendSchedule (block : List Nat) : List Nat :=
  (List.range 48).foldl
    (fun w i =>
      w ++ [(smallSigma1 (nth w (i + 14)) + nth w (i + 9) +
             smallSigma0 (nth w (i + 1)) + nth w i) % w32])
    block

/-- One SHA-256 compression round over the working state [a,b,c,d,e,f,g,h]. -/
def shaRound (w : List Nat) (st : List Nat) (i : Nat) : List Nat :=
  let a := nth st 0
  let b := nth st 1
  let c := nth st 2
  let d := nth st 3
  let e := nth st 4
  let f := nth st 5
  let g := nth st 6
  let hh := nth st 7
  let t1 := (hh + bigSigma1 e + shaCh e f g + nth shaK i + nth w i) % w32
  let t2 := (bigSigma0 a + shaMaj a b c) % w32
  [(t1 + t2) % w32, a, b, c, (d + t1) % w32, e, f, g]

def compressBlock (h : List Nat) (block : List Nat) : List Nat :=
  let w := extendSchedule block
  let st := (List.range 64).foldl (shaRound w) h
  [(nth h 0 + nth st 0) % w32, (nth h 1 + nth st 1) % w32,
   (nth h 2 + nth st 2) % w32, (nth h 3 + nth st 3) % w32,
   (nth h 4 + nth st 4) % w32, (nth h 5 + nth st 5) % w32,
   (nth h 6 + nth st 6) % w32, (nth h 7 + nth st 7) % w32]

def sha256Words (s : String) : List Nat :=
  (chunk16 (bytesToWords (sha256Pad (strBytes s)))).foldl compressBlock shaInit

def hexChar (n : Nat) : Char :=
  if n < 10 then Char.ofNat (48 + n) else Char.ofNat (87 + n)

def wordToHex (x : Nat) : String :=
  String.mk ((List.range 8).map (fun i => hexChar ((x >>> (4 * (7 - i))) &&& 15)))

/-- hashlib.sha256(s.encode()).hexdigest() of src/api/analyze.py: the prompt
fingerprint used as the cache key. -/
def sha256Hex (s : String) : String :=
  String.join ((sha256Words s).map wordToHex)

/-! ### Data model: file-backed JSON dictionaries as association lists

The Python code persists two dictionaries as JSON files (/tmp/rate_limits.json
and /tmp/response_cache.json). A dictionary becomes an association list; a
lookup takes the first binding of a key, and an assignment replaces every
binding of the key. Timestamps (time.time()) become integers. -/

/-- One value of the rate-limits dictionary: {"count": ..., "window_start": ...}. -/
structure RateRecord where
  count : Nat
  window_start : Int
deriving Repr, DecidableEq

/-- One value of the response-cache dictionary: {"text": ..., "ts": ...}. -/
structure CacheEntry where
  text : String
  ts : Int
deriving Repr, DecidableEq

abbrev RateStore := List (String × RateRecord)

abbrev CacheStore := List (String × CacheEntry)

/-- Dictionary lookup d.get(k): the first binding of k, if any. -/
def lookupKey {α : Type} (l : List (String × α)) (k : String) : Option α :=
  match l with
  | [] => none
  | (k2, v) :: t => if k2 = k then some v else lookupKey t k

/-- Dictionary assignment d[k] = v: drop every binding of k, append the new one. -/
def setKey {α : Type} (l : List (String × α)) (k : String) (v : α) : List (String × α) :=
  l.filter (fun kv => kv.1 ≠ k) ++ [(k, v)]

def MAX_REQUESTS_PER_HOUR : Nat := 10

def CACHE_TTL : Int := 3600

/-- _check_rate_limit of src/api/analyze.py, with the stored dictionary and
the clock passed explicitly: returns (allowed, new persisted store). On the
denied path the function returns before writing, so the store is unchanged. -/
def checkRateLimit (limits : RateStore) (ip : String) (now : Int) : Bool × RateStore :=
  let record := (lookupKey limits ip).getD ⟨0, now⟩
  let record := if now - record.window_start > 3600 then ⟨0, now⟩ else record
  if record.count ≥ MAX_REQUESTS_PER_HOUR then
    (false, limits)
  else
    let record : RateRecord := ⟨record.count + 1, record.window_start⟩
    let limits := setKey limits ip record
    let limits := limits.filter (fun kv => now - kv.2.window_start ≤ 3600)
    (true, limits)

/-- _get_cached of src/api/analyze.py: a hit requires an entry younger than
CACHE_TTL; otherwise None. -/
def getCached (cache : CacheStore) (promptHash : String) (now : Int) : Option String :=
  match lookupKey cache promptHash with
  | some entry => if now - entry.ts < CACHE_TTL then some entry.text else none
  | none => none

/-- _set_cached of src/api/analyze.py: write the entry stamped now, then
evict every expired entry. -/
def setCached (cache : CacheStore) (promptHash : String) (text : String) (now : Int) : CacheStore :=
  let cache := setKey cache promptHash ⟨text, now⟩
  cache.filter (fun kv => now - kv.2.ts < CACHE_TTL)

/-- A sequence of _check_rate_limit calls for one client at the given times,
threading the persisted store; returns the list of admission results. -/
def runCalls (limits : RateStore) (ip : String) : List Int → List Bool
  | [] => []
  | t :: ts =>
    let r := checkRateLimit limits ip t
    r.1 :: runCalls r.2 ip ts

/-! ### The analyze handlers -/

/-- The parsed JSON request body: the prompt and max_tokens fields, each
possibly absent (body.get supplies the defaults in the handler). -/
structure ReqBody where
  promptField : Option String
  maxTokensField : Option Int
deriving Repr, DecidableEq

/-- The inbound request body before parsing: zero Content-Length (json.loads
is skipped and body = {}), a body that is not valid JSON (json.loads raises),
or a valid JSON object. -/
inductive BodyInput where
  | empty
  | invalid
  | valid (body : ReqBody)
deriving Repr, DecidableEq

/-- The outcome of the outbound urllib.request.urlopen call, passed to the
handler as an oracle. On success, content carries the content field of the
decoded upstream JSON: absent, or a list of items each of which may or may
not have a text field. httpError is urllib.error.HTTPError; failure is any
other exception (network error, timeout, malformed upstream JSON), carrying
str(e). -/
inductive Upstream where
  | success (content : Option (List (Option String)))
  | httpError (code : Nat) (body : String)
  | failure (msg : String)
deriving Repr, DecidableEq

/-- The JSON object written by _respond: {"text": ...} or {"error": ...}. -/
inductive RespBody where
  | textField (s : String)
  | errorField (s : String)
deriving Repr, DecidableEq

/-- An HTTP response: status code and JSON body. -/
structure Response where
  status : Nat
  body : RespBody
deriving Repr, DecidableEq

/-- Result of one do_POST call of src/api/analyze.py: the response, the two
persisted stores afterwards, and three flags instrumenting whether
_get_cached, _check_rate_limit and the upstream call were invoked. -/
structure DoPostResult where
  resp : Response
  rate : RateStore
  cache : CacheStore
  cacheChecked : Bool
  rateLimiterCalled : Bool
  upstreamCalled : Bool
deriving Repr, DecidableEq

/-- data.get("content", [{}])[0].get("text", "No response generated.") on a
successful upstream response: a missing content field defaults to [{}]; an
empty content list raises IndexError (caught by the generic except clause,
str(e) being "list index out of range"); a first item without a text field
falls back to the literal. -/
def extractText (content : Option (List (Option String))) : Except String String :=
  match content.getD [none] with
  | [] => Except.error "list index out of range"
  | item :: _ => Except.ok (item.getD "No response generated.")

/-- The cache-miss tail of handler.do_POST of src/api/analyze.py (the code
after the falsy `if cached:` test): rate-limit check, upstream call, cache
write, response. -/
def doPostAfterCache (ip : String) (rate : RateStore) (cache : CacheStore)
    (now : Int) (up : Upstream) (promptHash : String) : DoPostResult :=
  let rl := checkRateLimit rate ip now
  if rl.1 = false then
    ⟨⟨429, RespBody.errorField "Rate limit exceeded. Try again later."⟩,
      rl.2, cache, true, true, false⟩
  else
    match up with
    | Upstream.success content =>
      match extractText content with
      | Except.ok text =>
        ⟨⟨200, RespBody.textField text⟩, rl.2, setCached cache promptHash text now,
          true, true, true⟩
      | Except.error msg =>
        ⟨⟨500, RespBody.errorField msg⟩, rl.2, cache, true, true, true⟩
    | Upstream.httpError code errBody =>
      ⟨⟨502, RespBody.errorField ("Anthropic API error: " ++ toString code ++ " " ++ errBody)⟩,
        rl.2, cache, true, true, true⟩
    | Upstream.failure msg =>
      ⟨⟨500, RespBody.errorField msg⟩, rl.2, cache, true, true, true⟩

/-- handler.do_POST of src/api/analyze.py, with the environment credential,
the parsed client identity, the two persisted stores, the clock and the
upstream oracle passed explicitly. -/
def doPost (apiKey : String) (input : BodyInput) (ip : String)
    (rate : RateStore) (cache : CacheStore) (now : Int) (up : Upstream) : DoPostResult :=
  if apiKey = "" then
    ⟨⟨503, RespBody.errorField "API key not configured"⟩, rate, cache, false, false, false⟩
  else
    let body : ReqBody :=
      match input with
      | BodyInput.empty => ⟨none, none⟩
      | BodyInput.invalid => ⟨none, none⟩
      | BodyInput.valid b => b
    let prompt := body.promptField.getD ""
    if prompt = "" then
      ⟨⟨400, RespBody.errorField "prompt is required"⟩, rate, cache, false, false, false⟩
    else
      let promptHash := sha256Hex prompt
      match getCached cache promptHash now with
      | some cached =>
        if cached ≠ "" then
          ⟨⟨200, RespBody.textField cached⟩, rate, cache, true, false, false⟩
        else
          doPostAfterCache ip rate cache now up promptHash
      | none => doPostAfterCache ip rate cache now up promptHash

/-- Repeated do_POST calls with the same credential, body, client and
upstream oracle at the given times, threading the persisted stores. -/
def runPosts (apiKey : String) (input : BodyInput) (ip : String)
    (rate : RateStore) (cache : CacheStore) (up : Upstream) : List Int → List DoPostResult
  | [] => []
  | t :: ts =>
    let r := doPost apiKey input ip rate cache t up
    r :: runPosts apiKey input ip r.rate r.cache up ts

/-- The part of Handler._handle_analyze of src/server.py after the body
parse: prompt validation, upstream call, response. This variant has no cache
and no rate limiter. -/
def handleParsedBody (body : ReqBody) (up : Upstream) : Response :=
  let prompt := body.promptField.getD ""
  if prompt = "" then
    ⟨400, RespBody.errorField "prompt is required"⟩
  else
    match up with
    | Upstream.success content =>
      match extractText content with
      | Except.ok text => ⟨200, RespBody.textField text⟩
      | Except.error msg => ⟨500, RespBody.errorField msg⟩
    | Upstream.httpError code errBody =>
      ⟨502, RespBody.errorField ("Anthropic API error: " ++ toString code ++ " " ++ errBody)⟩
    | Upstream.failure msg => ⟨500, RespBody.errorField msg⟩

/-- Handler._handle_analyze of src/server.py. The body parse (json.loads) is
not wrapped in a try/except there, so a body that is not valid JSON raises
json.JSONDecodeError out of the handler, modelled as Except.error; every
other path produces a Response. -/
def handleAnalyze (apiKey : String) (input : BodyInput) (up : Upstream) :
    Except String Response :=
  if apiKey = "" then
    Except.ok ⟨503, RespBody.errorField "API key not configured"⟩
  else
    match input with
    | BodyInput.invalid => Except.error "json.JSONDecodeError"
    | BodyInput.empty => Except.ok (handleParsedBody ⟨none, none⟩ up)
    | BodyInput.valid b => Except.ok (handleParsedBody b up)

/-- Rate-limiter store states reachable from the initial state (the missing
or empty /tmp/rate_limits.json, an empty dictionary) by _check_rate_limit
calls. -/
inductive Reachable : RateStore → Prop where
  | base : Reachable []
  | step (s : RateStore) (ip : String) (now : Int) :
      Reachable s → Reachable (checkRateLimit s ip now).2

set_option maxRecDepth 10000 in
/-- The embedded digest agrees with the NIST test vector for "abc",
validating the SHA-256 translation. -/
theorem sha256Hex_nist_vector :
    sha256Hex "abc" = "ba7816bf8f01cfea414140de5dae2223b00361a396177a9cb410ff61f20015ad" := by
  decide

/-! ### Association-list lemmas -/

theorem lookupKey_append {α : Type} (l1 l2 : List (String × α)) (k : String) :
    lookupKey (l1 ++ l2) k =
      match lookupKey l1 k with
      | some v => some v
      | none => lookupKey l2 k := by
  induction l1 with
  | nil => simp [lookupKey]
  | cons a t ih =>
    by_cases h : a.1 = k
    · simp [lookupKey, h]
    · simp [lookupKey, h, ih]

theorem lookupKey_filter_dropKey {α : Type} (l : List (String × α)) (k : String) :
    lookupKey (l.filter (fun kv => kv.1 ≠ k)) k = none := by
  induction l with
  | nil => simp [lookupKey]
  | cons a t ih =>
    by_cases h : a.1 = k
    · have hd : decide (a.1 ≠ k) = false := by simpa using h
      simp only [List.filter, hd]
      exact ih
    · have hd : decide (a.1 ≠ k) = true := by simpa using h
      simp only [List.filter, hd]
      rw [lookupKey, if_neg h]
      exact ih

theorem lookupKey_setKey_self {α : Type} (l : List (String × α)) (k : String) (v : α) :
    lookupKey (setKey l k v) k = some v := by
  rw [setKey, lookupKey_append, lookupKey_filter_dropKey]
  simp [lookupKey]

theorem lookupKey_filter_ne {α : Type} (l : List (String × α)) (k k2 : String)
    (h : k ≠ k2) :
    lookupKey (l.filter (fun kv => kv.1 ≠ k)) k2 = lookupKey l k2 := by
  induction l with
  | nil => simp
  | cons a t ih =>
    by_cases ha : a.1 = k
    · have hne : a.1 ≠ k2 := by rw [ha]; exact h
      have hd : decide (a.1 ≠ k) = false := by simpa using ha
      simp only [List.filter, hd]
      rw [lookupKey, if_neg hne]
      exact ih
    · have hd : decide (a.1 ≠ k) = true := by simpa using ha
      simp only [List.filter, hd]
      by_cases ha2 : a.1 = k2
      · rw [lookupKey, if_pos ha2, lookupKey, if_pos ha2]
      · rw [lookupKey, if_neg ha2, lookupKey, if_neg ha2]
        exact ih

theorem lookupKey_setKey_ne {α : Type} (l : List (String × α)) (k k2 : String) (v : α)
    (h : k ≠ k2) :
    lookupKey (setKey l k v) k2 = lookupKey l k2 := by
  rw [setKey, lookupKey_append, lookupKey_filter_ne l k k2 h]
  cases hl : lookupKey l k2 with
  | some v2 => simp
  | none => simp [lookupKey, h]

theorem lookupKey_filter_keep {α : Type} (p : String × α → Bool) (l : List (String × α))
    (k : String) (v : α) (hl : lookupKey l k = some v) (hp : p (k, v) = true) :
    lookupKey (l.filter p) k = some v := by
  induction l with
  | nil => simp [lookupKey] at hl
  | cons a t ih =>
    by_cases h : a.1 = k
    · rw [lookupKey, if_pos h] at hl
      obtain ⟨k1, v1⟩ := a
      cases hl
      cases h
      simp [List.filter, hp, lookupKey]
    · rw [lookupKey, if_neg h] at hl
      by_cases hpa : p a = true
      · simp [List.filter, hpa, lookupKey, h, ih hl]
      · simp at hpa
        simp [List.filter, hpa, ih hl]

theorem lookupKey_mem {α : Type} (l : List (String × α)) (k : String) (v : α)
    (hl : lookupKey l k = some v) : (k, v) ∈ l := by
  induction l with
  | nil => simp [lookupKey] at hl
  | cons a t ih =>
    by_cases h : a.1 = k
    · rw [lookupKey, if_pos h] at hl
      obtain ⟨k1, v1⟩ := a
      cases hl
      cases h
      simp
    · rw [lookupKey, if_neg h] at hl
      exact List.mem_cons_of_mem a (ih hl)

/-! ### Characterization of the four paths through _check_rate_limit -/

/-- The eviction predicate of _check_rate_limit. -/
def rateKeep (now : Int) : String × RateRecord → Bool :=
  fun kv => now - kv.2.window_start ≤ 3600

theorem checkRateLimit_fresh (s : RateStore) (ip : String) (now : Int)
    (hl : lookupKey s ip = none) :
    checkRateLimit s ip now = (true, (setKey s ip ⟨1, now⟩).filter (rateKeep now)) := by
  have h1 : ¬ (now - now > 3600) := by omega
  simp [checkRateLimit, hl, h1, MAX_REQUESTS_PER_HOUR]
  congr 1
  funext kv
  simp only [rateKeep]
  rw [decide_eq_decide]
  omega

theorem checkRateLimit_elapsed (s : RateStore) (ip : String) (now : Int) (r : RateRecord)
    (hl : lookupKey s ip = some r) (helapsed : now - r.window_start > 3600) :
    checkRateLimit s ip now = (true, (setKey s ip ⟨1, now⟩).filter (rateKeep now)) := by
  simp [checkRateLimit, hl, helapsed, MAX_REQUESTS_PER_HOUR]
  congr 1
  funext kv
  simp only [rateKeep]
  rw [decide_eq_decide]
  omega

theorem checkRateLimit_current_allowed (s : RateStore) (ip : String) (now : Int)
    (r : RateRecord) (hl : lookupKey s ip = some r)
    (hcur : ¬ (now - r.window_start > 3600)) (hcount : r.count < MAX_REQUESTS_PER_HOUR) :
    checkRateLimit s ip now =
      (true, (setKey s ip ⟨r.count + 1, r.window_start⟩).filter (rateKeep now)) := by
  have h2 : ¬ (r.count ≥ MAX_REQUESTS_PER_HOUR) := by omega
  simp [checkRateLimit, hl, hcur, h2]
  congr 1
  funext kv
  simp only [rateKeep]
  rw [decide_eq_decide]
  omega

theorem checkRateLimit_current_denied (s : RateStore) (ip : String) (now : Int)
    (r : RateRecord) (hl : lookupKey s ip = some r)
    (hcur : ¬ (now - r.window_start > 3600)) (hcount : r.count ≥ MAX_REQUESTS_PER_HOUR) :
    checkRateLimit s ip now = (false, s) := by
  simp [checkRateLimit, hl, hcur, hcount]

/-- An entry of d[k] = v followed by an eviction scan either was in the
dictionary before or is the new binding. -/
theorem mem_setKey_filter {α : Type} (p : String × α → Bool) (l : List (String × α))
    (k : String) (v : α) (e : String × α) (he : e ∈ (setKey l k v).filter p) :
    e ∈ l ∨ e = (k, v) := by
  have h1 := List.mem_of_mem_filter he
  rw [setKey] at h1
  rcases List.mem_append.mp h1 with h2 | h2
  · exact Or.inl (List.mem_of_mem_filter h2)
  · simp at h2
    exact Or.inr h2

/-- One _check_rate_limit call preserves the global count bound. -/
theorem checkRateLimit_count_bound (s : RateStore) (ip : String) (now : Int)
    (hs : ∀ e ∈ s, e.2.count ≤ MAX_REQUESTS_PER_HOUR) :
    ∀ e ∈ (checkRateLimit s ip now).2, e.2.count ≤ MAX_REQUESTS_PER_HOUR := by
  intro e he
  rcases hlk : lookupKey s ip with _ | r
  · rw [checkRateLimit_fresh s ip now hlk] at he
    rcases mem_setKey_filter _ _ _ _ _ he with h | h
    · exact hs e h
    · subst h
      simp [MAX_REQUESTS_PER_HOUR]
  · by_cases hel : now - r.window_start > 3600
    · rw [checkRateLimit_elapsed s ip now r hlk hel] at he
      rcases mem_setKey_filter _ _ _ _ _ he with h | h
      · exact hs e h
      · subst h
        simp [MAX_REQUESTS_PER_HOUR]
    · by_cases hcnt : r.count < MAX_REQUESTS_PER_HOUR
      · rw [checkRateLimit_current_allowed s ip now r hlk hel hcnt] at he
        rcases mem_setKey_filter _ _ _ _ _ he with h | h
        · exact hs e h
        · subst h
          have := hs (ip, r) (lookupKey_mem s ip r hlk)
          simp
          omega
      · rw [checkRateLimit_current_denied s ip now r hlk hel (by omega)] at he
        exact hs e he

/-- Every reachable rate-limiter store satisfies the global count bound. -/
theorem reachable_count_bound (s : RateStore) (hs : Reachable s) :
    ∀ e ∈ s, e.2.count ≤ MAX_REQUESTS_PER_HOUR := by
  induction hs with
  | base =>
    intro e he
    simp at he
  | step s ip now _ ih => exact checkRateLimit_count_bound s ip now ih

/-! ### Claim theorems -/

/-- C4: a cache entry written by _set_cached at time T with ttl 3600 is
returned by _get_cached at time T+Δ exactly when Δ < ttl: a hit with the
stored text for Δ < ttl, a miss for Δ ≥ ttl. -/
theorem cache_entry_ttl (cache : CacheStore) (fp : String) (text : String) (T Δ : Int) :
    getCached (setCached cache fp text T) fp (T + Δ) =
      if Δ < CACHE_TTL then some text else none := by
  have hl : lookupKey (setCached cache fp text T) fp = some ⟨text, T⟩ := by
    rw [setCached]
    apply lookupKey_filter_keep _ _ _ _ (lookupKey_setKey_self cache fp ⟨text, T⟩)
    simp [CACHE_TTL]
  simp only [getCached, hl]
  have he : T + Δ - (⟨text, T⟩ : CacheEntry).ts = Δ := by
    simp
  rw [he]

/-- C5: when the current record of a client has reached the ceiling,
_check_rate_limit returns denied and the persisted store is exactly the
store it started from: no record is modified, added or evicted. -/
theorem denied_leaves_store_unchanged (limits : RateStore) (ip : String) (now : Int)
    (r : RateRecord) (hl : lookupKey limits ip = some r)
    (hcur : now - r.window_start ≤ 3600) (hcount : r.count ≥ MAX_REQUESTS_PER_HOUR) :
    checkRateLimit limits ip now = (false, limits) :=
  checkRateLimit_current_denied limits ip now r hl (by omega) hcount

/-- Witness for C5 at a concrete store: the key has a current record with
count 10, the call is denied and the store is returned verbatim. -/
theorem denied_leaves_store_unchanged_witness :
    lookupKey [("a", RateRecord.mk 10 0)] "a" = some (RateRecord.mk 10 0) ∧
    (5 : Int) - (RateRecord.mk 10 0).window_start ≤ 3600 ∧
    (RateRecord.mk 10 0).count ≥ MAX_REQUESTS_PER_HOUR ∧
    checkRateLimit [("a", RateRecord.mk 10 0)] "a" 5 = (false, [("a", RateRecord.mk 10 0)]) :=
  ⟨by decide, by decide, by decide,
    denied_leaves_store_unchanged [("a", RateRecord.mk 10 0)] "a" 5 (RateRecord.mk 10 0)
      (by decide) (by decide) (by decide)⟩

/-- C3: in every rate-limiter store reachable by _check_rate_limit calls
from the initial empty store, the count of every current record (one with
now - windowStart ≤ windowDuration) is at most the ceiling of 10, and an
admitted call for a key whose record is current replaces that count by
exactly count + 1. -/
theorem reachable_store_invariant (s : RateStore) (hs : Reachable s) :
    (∀ (k : String) (r : RateRecord) (now : Int), lookupKey s k = some r →
      now - r.window_start ≤ 3600 → r.count ≤ MAX_REQUESTS_PER_HOUR) ∧
    (∀ (ip : String) (now : Int) (r : RateRecord), lookupKey s ip = some r →
      now - r.window_start ≤ 3600 → (checkRateLimit s ip now).1 = true →
      lookupKey (checkRateLimit s ip now).2 ip = some ⟨r.count + 1, r.window_start⟩) := by
  constructor
  · intro k r now hl _
    exact reachable_count_bound s hs (k, r) (lookupKey_mem s k r hl)
  · intro ip now r hl hcur hallow
    by_cases hcnt : r.count < MAX_REQUESTS_PER_HOUR
    · rw [checkRateLimit_current_allowed s ip now r hl (by omega) hcnt]
      apply lookupKey_filter_keep _ _ _ _
        (lookupKey_setKey_self s ip ⟨r.count + 1, r.window_start⟩)
      simp [rateKeep]
      omega
    · exfalso
      rw [checkRateLimit_current_denied s ip now r hl (by omega) (by omega)] at hallow
      simp at hallow

/-- Witness for C3 at the store reached by one call from the empty store. -/
theorem reachable_store_invariant_witness :
    Reachable ((checkRateLimit [] "a" 0).2) ∧
    ((∀ (k : String) (r : RateRecord) (now : Int),
        lookupKey (checkRateLimit [] "a" 0).2 k = some r →
        now - r.window_start ≤ 3600 → r.count ≤ MAX_REQUESTS_PER_HOUR) ∧
     (∀ (ip : String) (now : Int) (r : RateRecord),
        lookupKey (checkRateLimit [] "a" 0).2 ip = some r →
        now - r.window_start ≤ 3600 → (checkRateLimit (checkRateLimit [] "a" 0).2 ip now).1 = true →
        lookupKey (checkRateLimit (checkRateLimit [] "a" 0).2 ip now).2 ip =
          some ⟨r.count + 1, r.window_start⟩)) :=
  ⟨Reachable.step [] "a" 0 Reachable.base,
    reachable_store_invariant _ (Reachable.step [] "a" 0 Reachable.base)⟩

/-- C9: an admitted _check_rate_limit call for key k leaves the record of
every other key whose window has not elapsed unchanged, and a record of
another key that disappears from the store had an elapsed window. -/
theorem allowed_frame_other_keys (s : RateStore) (k k2 : String) (now : Int)
    (hne : k ≠ k2) (hallow : (checkRateLimit s k now).1 = true) :
    (∀ r2 : RateRecord, lookupKey s k2 = some r2 → now - r2.window_start ≤ 3600 →
      lookupKey (checkRateLimit s k now).2 k2 = some r2) ∧
    (∀ r2 : RateRecord, lookupKey s k2 = some r2 →
      lookupKey (checkRateLimit s k now).2 k2 = none →
      now - r2.window_start > 3600) := by
  have main : ∀ r2 : RateRecord, lookupKey s k2 = some r2 → now - r2.window_start ≤ 3600 →
      lookupKey (checkRateLimit s k now).2 k2 = some r2 := by
    intro r2 hl2 hcur2
    have hkeep : rateKeep now (k2, r2) = true := by
      simp [rateKeep]
      omega
    have hset : ∀ v : RateRecord, lookupKey (setKey s k v) k2 = some r2 := by
      intro v
      rw [lookupKey_setKey_ne s k k2 v hne]
      exact hl2
    rcases hlk : lookupKey s k with _ | r
    · rw [checkRateLimit_fresh s k now hlk]
      exact lookupKey_filter_keep _ _ _ _ (hset _) hkeep
    · by_cases hel : now - r.window_start > 3600
      · rw [checkRateLimit_elapsed s k now r hlk hel]
        exact lookupKey_filter_keep _ _ _ _ (hset _) hkeep
      · by_cases hcnt : r.count < MAX_REQUESTS_PER_HOUR
        · rw [checkRateLimit_current_allowed s k now r hlk hel hcnt]
          exact lookupKey_filter_keep _ _ _ _ (hset _) hkeep
        · exfalso
          rw [checkRateLimit_current_denied s k now r hlk hel (by omega)] at hallow
          simp at hallow
  refine ⟨main, ?_⟩
  intro r2 hl2 hnone
  by_contra hcur
  push_neg at hcur
  rw [main r2 hl2 (by omega)] at hnone
  simp at hnone

/-- Witness for C9: an admitted call for key a leaves the current record of
key b untouched. -/
theorem allowed_frame_other_keys_witness :
    "a" ≠ "b" ∧ (checkRateLimit [("b", RateRecord.mk 3 0)] "a" 5).1 = true ∧
    ((∀ r2 : RateRecord, lookupKey [("b", RateRecord.mk 3 0)] "b" = some r2 →
        (5 : Int) - r2.window_start ≤ 3600 →
        lookupKey (checkRateLimit [("b", RateRecord.mk 3 0)] "a" 5).2 "b" = some r2) ∧
     (∀ r2 : RateRecord, lookupKey [("b", RateRecord.mk 3 0)] "b" = some r2 →
        lookupKey (checkRateLimit [("b", RateRecord.mk 3 0)] "a" 5).2 "b" = none →
        (5 : Int) - r2.window_start > 3600)) :=
  ⟨by decide, by decide,
    allowed_frame_other_keys [("b", RateRecord.mk 3 0)] "a" "b" 5 (by decide) (by decide)⟩

/-- While a current record for the client exists, the admission results of a
call sequence within its window are determined by its count: the i-th call
is allowed exactly when count + i is below the ceiling. -/
theorem runCalls_current_record (ip : String) (t0 : Int) :
    ∀ (ts : List Int) (s : RateStore) (c : Nat),
      lookupKey s ip = some ⟨c, t0⟩ →
      (∀ t ∈ ts, t - t0 ≤ 3600) →
      runCalls s ip ts =
        (List.range ts.length).map (fun i => decide (c + i < MAX_REQUESTS_PER_HOUR)) := by
  intro ts
  induction ts with
  | nil =>
    intro s c _ _
    simp [runCalls]
  | cons t ts ih =>
    intro s c hl hwin
    have hcur : ¬ (t - t0 > 3600) := by
      have := hwin t (List.mem_cons_self t ts)
      omega
    have hwin2 : ∀ u ∈ ts, u - t0 ≤ 3600 := by
      intro u hu
      exact hwin u (List.mem_cons_of_mem t hu)
    rw [List.length_cons, List.range_succ_eq_map, List.map_cons, List.map_map]
    by_cases hcnt : c < MAX_REQUESTS_PER_HOUR
    · have hstep := checkRateLimit_current_allowed s ip t ⟨c, t0⟩ hl hcur hcnt
      have hl2 : lookupKey ((setKey s ip ⟨c + 1, t0⟩).filter (rateKeep t)) ip =
          some ⟨c + 1, t0⟩ := by
        apply lookupKey_filter_keep _ _ _ _ (lookupKey_setKey_self s ip ⟨c + 1, t0⟩)
        simp [rateKeep]
        omega
      simp only [runCalls, hstep]
      rw [ih _ (c + 1) hl2 hwin2]
      have hhead : decide (c + 0 < MAX_REQUESTS_PER_HOUR) = true :=
        decide_eq_true (by omega)
      have htail : List.map (fun i => decide (c + 1 + i < MAX_REQUESTS_PER_HOUR))
            (List.range ts.length) =
          List.map ((fun i => decide (c + i < MAX_REQUESTS_PER_HOUR)) ∘ Nat.succ)
            (List.range ts.length) := by
        apply List.map_congr_left
        intro a _
        simp only [Function.comp]
        rw [decide_eq_decide]
        omega
      rw [hhead, htail]
    · have hstep := checkRateLimit_current_denied s ip t ⟨c, t0⟩ hl hcur
        (by show MAX_REQUESTS_PER_HOUR ≤ c; omega)
      simp only [runCalls, hstep]
      rw [ih _ c hl hwin2]
      have hhead : decide (c + 0 < MAX_REQUESTS_PER_HOUR) = false := by
        rw [decide_eq_false_iff_not]
        omega
      have htail : List.map (fun i => decide (c + i < MAX_REQUESTS_PER_HOUR))
            (List.range ts.length) =
          List.map ((fun i => decide (c + i < MAX_REQUESTS_PER_HOUR)) ∘ Nat.succ)
            (List.range ts.length) := by
        apply List.map_congr_left
        intro a _
        simp only [Function.comp]
        rw [decide_eq_decide]
        omega
      rw [hhead, htail]

/-- C1: starting from a store with no record for the client, a sequence of
_check_rate_limit calls whose times all lie within one window duration of
the first call returns allowed for exactly the first 10 calls and denied
for the 11th and every later call. -/
theorem fresh_key_first_ten_allowed (s : RateStore) (ip : String) (t0 : Int)
    (rest : List Int) (h0 : lookupKey s ip = none)
    (hwin : ∀ t ∈ rest, t - t0 ≤ 3600) :
    runCalls s ip (t0 :: rest) =
      (List.range (rest.length + 1)).map (fun i => decide (i < MAX_REQUESTS_PER_HOUR)) := by
  have hstep := checkRateLimit_fresh s ip t0 h0
  have hl1 : lookupKey ((setKey s ip ⟨1, t0⟩).filter (rateKeep t0)) ip = some ⟨1, t0⟩ := by
    apply lookupKey_filter_keep _ _ _ _ (lookupKey_setKey_self s ip ⟨1, t0⟩)
    simp [rateKeep]
  simp only [runCalls, hstep]
  rw [runCalls_current_record ip t0 rest _ 1 hl1 hwin]
  rw [List.range_succ_eq_map, List.map_cons, List.map_map]
  have htail : List.map (fun i => decide (1 + i < MAX_REQUESTS_PER_HOUR))
        (List.range rest.length) =
      List.map ((fun i => decide (i < MAX_REQUESTS_PER_HOUR)) ∘ Nat.succ)
        (List.range rest.length) := by
    apply List.map_congr_left
    intro a _
    simp only [Function.comp]
    rw [decide_eq_decide]
    omega
  rw [htail, show decide (0 < MAX_REQUESTS_PER_HOUR) = true from by decide]

/-- Witness for C1: thirteen calls for a fresh key within one hour; the
results are allowed ten times, then denied three times. -/
theorem fresh_key_first_ten_allowed_witness :
    lookupKey ([] : RateStore) "a" = none ∧
    (∀ t ∈ [(1 : Int), 2, 3, 4, 5, 6, 7, 8, 9, 10, 11, 12], t - 0 ≤ 3600) ∧
    runCalls [] "a" (0 :: [(1 : Int), 2, 3, 4, 5, 6, 7, 8, 9, 10, 11, 12]) =
      (List.range ([(1 : Int), 2, 3, 4, 5, 6, 7, 8, 9, 10, 11, 12].length + 1)).map
        (fun i => decide (i < MAX_REQUESTS_PER_HOUR)) :=
  ⟨by decide, by decide,
    fresh_key_first_ten_allowed [] "a" 0 [1, 2, 3, 4, 5, 6, 7, 8, 9, 10, 11, 12]
      (by decide) (by decide)⟩

/-- C6: with no credential configured, both analyze handlers short-circuit
to 503 with the error envelope before prompt validation: the serverless
handler returns both stores unchanged and the cache-read, rate-limiter and
upstream flags all false, for every request body. -/
theorem no_credential_503 (apiKey : String) (input : BodyInput) (ip : String)
    (rate : RateStore) (cache : CacheStore) (now : Int) (up : Upstream)
    (hk : apiKey = "") :
    doPost apiKey input ip rate cache now up =
      ⟨⟨503, RespBody.errorField "API key not configured"⟩, rate, cache, false, false, false⟩ ∧
    handleAnalyze apiKey input up =
      Except.ok ⟨503, RespBody.errorField "API key not configured"⟩ := by
  subst hk
  exact ⟨by simp [doPost], by simp [handleAnalyze]⟩

/-- Witness for C6 at a request that would otherwise reach the upstream. -/
theorem no_credential_503_witness :
    ("" : String) = "" ∧
    (doPost "" (BodyInput.valid ⟨some "hi", none⟩) "c" [] [] 0 (Upstream.success none) =
      ⟨⟨503, RespBody.errorField "API key not configured"⟩, [], [], false, false, false⟩ ∧
     handleAnalyze "" (BodyInput.valid ⟨some "hi", none⟩) (Upstream.success none) =
      Except.ok ⟨503, RespBody.errorField "API key not configured"⟩) :=
  ⟨rfl, no_credential_503 "" (BodyInput.valid ⟨some "hi", none⟩) "c" [] [] 0
    (Upstream.success none) rfl⟩

/-- A non-empty cache hit short-circuits one do_POST call: 200 with the
cached text, both stores unchanged, rate limiter and upstream not invoked. -/
theorem doPost_cache_hit (apiKey : String) (b : ReqBody) (ip : String)
    (rate : RateStore) (cache : CacheStore) (now : Int) (up : Upstream)
    (hk : ¬ apiKey = "") (p : String) (hp : b.promptField = some p) (hpne : ¬ p = "")
    (t : String) (ht : getCached cache (sha256Hex p) now = some t) (htne : ¬ t = "") :
    doPost apiKey (BodyInput.valid b) ip rate cache now up =
      ⟨⟨200, RespBody.textField t⟩, rate, cache, true, false, false⟩ := by
  simp [doPost, hk, hp, hpne, ht, htne]

/-- C2 (amended): while the credential is configured and the prompt is
non-empty, a fingerprint with an unexpired cache entry holding non-empty
text makes do_POST respond 200 with the cached text without invoking
_check_rate_limit or the upstream call, with both stores unchanged, for any
number of repeated identical prompts within the ttl. -/
theorem cache_hit_skips_rate_limit (apiKey : String) (b : ReqBody) (ip : String)
    (rate : RateStore) (cache : CacheStore) (up : Upstream) (times : List Int)
    (hk : ¬ apiKey = "") (p : String) (hp : b.promptField = some p) (hpne : ¬ p = "")
    (e : CacheEntry) (he : lookupKey cache (sha256Hex p) = some e) (hene : ¬ e.text = "")
    (htimes : ∀ τ ∈ times, τ - e.ts < CACHE_TTL) :
    runPosts apiKey (BodyInput.valid b) ip rate cache up times =
      times.map (fun _ =>
        ⟨⟨200, RespBody.textField e.text⟩, rate, cache, true, false, false⟩) := by
  induction times with
  | nil => simp [runPosts]
  | cons τ ts ih =>
    have hget : getCached cache (sha256Hex p) τ = some e.text := by
      simp only [getCached, he]
      rw [if_pos (htimes τ (List.mem_cons_self τ ts))]
    have hhit := doPost_cache_hit apiKey b ip rate cache τ up hk p hp hpne e.text hget hene
    simp only [runPosts, hhit, List.map_cons]
    exact congrArg _ (ih (fun u hu => htimes u (List.mem_cons_of_mem τ hu)))

/-- Witness for C2 (amended): three repeated hits on a non-empty entry. -/
theorem cache_hit_skips_rate_limit_witness :
    ¬ ("key" : String) = "" ∧
    (ReqBody.mk (some "hi") none).promptField = some "hi" ∧ ¬ ("hi" : String) = "" ∧
    lookupKey [(sha256Hex "hi", CacheEntry.mk "pong" 0)] (sha256Hex "hi") =
      some (CacheEntry.mk "pong" 0) ∧
    ¬ (CacheEntry.mk "pong" 0).text = "" ∧
    (∀ τ ∈ [(1 : Int), 2, 3], τ - (CacheEntry.mk "pong" 0).ts < CACHE_TTL) ∧
    runPosts "key" (BodyInput.valid (ReqBody.mk (some "hi") none)) "c" []
        [(sha256Hex "hi", CacheEntry.mk "pong" 0)] (Upstream.success none) [1, 2, 3] =
      [(1 : Int), 2, 3].map (fun _ =>
        ⟨⟨200, RespBody.textField (CacheEntry.mk "pong" 0).text⟩, [],
          [(sha256Hex "hi", CacheEntry.mk "pong" 0)], true, false, false⟩) :=
  ⟨by decide, rfl, by decide, by simp [lookupKey], by decide, by decide,
    cache_hit_skips_rate_limit "key" (ReqBody.mk (some "hi") none) "c" []
      [(sha256Hex "hi", CacheEntry.mk "pong" 0)] (Upstream.success none) [1, 2, 3]
      (by decide) "hi" rfl (by decide) (CacheEntry.mk "pong" 0) (by simp [lookupKey])
      (by decide) (by decide)⟩

/-- C2 counterexample: an unexpired cache entry whose stored text is the
empty string does not short-circuit: the handler invokes the rate limiter
and the upstream call and responds with the upstream text, not the cached
one. -/
theorem cache_hit_skips_rate_limit_counterexample :
    getCached [(sha256Hex "hi", CacheEntry.mk "" 0)] (sha256Hex "hi") 1 = some "" ∧
    (doPost "key" (BodyInput.valid (ReqBody.mk (some "hi") none)) "1.2.3.4" []
        [(sha256Hex "hi", CacheEntry.mk "" 0)] 1
        (Upstream.success (some [some "pong"]))).rateLimiterCalled = true ∧
    (doPost "key" (BodyInput.valid (ReqBody.mk (some "hi") none)) "1.2.3.4" []
        [(sha256Hex "hi", CacheEntry.mk "" 0)] 1
        (Upstream.success (some [some "pong"]))).upstreamCalled = true ∧
    (doPost "key" (BodyInput.valid (ReqBody.mk (some "hi") none)) "1.2.3.4" []
        [(sha256Hex "hi", CacheEntry.mk "" 0)] 1
        (Upstream.success (some [some "pong"]))).resp =
      ⟨200, RespBody.textField "pong"⟩ := by
  have hget : getCached [(sha256Hex "hi", CacheEntry.mk "" 0)] (sha256Hex "hi") 1 =
      some "" := by
    norm_num [getCached, lookupKey, CACHE_TTL]
  have hpost : doPost "key" (BodyInput.valid (ReqBody.mk (some "hi") none)) "1.2.3.4" []
      [(sha256Hex "hi", CacheEntry.mk "" 0)] 1 (Upstream.success (some [some "pong"])) =
      doPostAfterCache "1.2.3.4" [] [(sha256Hex "hi", CacheEntry.mk "" 0)] 1
        (Upstream.success (some [some "pong"])) (sha256Hex "hi") := by
    simp [doPost, hget]
  have hrl : checkRateLimit [] "1.2.3.4" 1 = (true, [("1.2.3.4", RateRecord.mk 1 1)]) := by
    decide
  refine ⟨hget, ?_, ?_, ?_⟩ <;>
    simp [hpost, doPostAfterCache, hrl, extractText]

/-- The cache-miss tail always invokes _get_cached and _check_rate_limit,
and invokes the upstream call exactly when the rate limiter admits. -/
theorem doPostAfterCache_flags (ip : String) (rate : RateStore) (cache : CacheStore)
    (now : Int) (up : Upstream) (ph : String) :
    (doPostAfterCache ip rate cache now up ph).cacheChecked = true ∧
    (doPostAfterCache ip rate cache now up ph).rateLimiterCalled = true ∧
    ((checkRateLimit rate ip now).1 = true →
      (doPostAfterCache ip rate cache now up ph).upstreamCalled = true) := by
  by_cases hrl : (checkRateLimit rate ip now).1 = false
  · simp [doPostAfterCache, hrl]
  · have hrl2 : (checkRateLimit rate ip now).1 = true := by
      cases h : (checkRateLimit rate ip now).1
      · exact absurd h hrl
      · rfl
    cases up with
    | success content =>
      rcases hex : extractText content with msg | text <;>
        simp [doPostAfterCache, hrl2, hex]
    | httpError code errBody => simp [doPostAfterCache, hrl2]
    | failure msg => simp [doPostAfterCache, hrl2]

/-- C10: an unexpired cache entry whose stored text is the empty string is
treated as a cache miss: do_POST behaves exactly as the cache-miss tail,
invokes the rate limiter, and when the limiter admits the request it makes
the upstream call instead of returning the cached empty text. -/
theorem empty_cached_text_is_miss (apiKey : String) (b : ReqBody) (ip : String)
    (rate : RateStore) (cache : CacheStore) (now : Int) (up : Upstream)
    (hk : ¬ apiKey = "") (p : String) (hp : b.promptField = some p) (hpne : ¬ p = "")
    (e : CacheEntry) (he : lookupKey cache (sha256Hex p) = some e)
    (hfresh : now - e.ts < CACHE_TTL) (hempty : e.text = "") :
    doPost apiKey (BodyInput.valid b) ip rate cache now up =
      doPostAfterCache ip rate cache now up (sha256Hex p) ∧
    (doPost apiKey (BodyInput.valid b) ip rate cache now up).rateLimiterCalled = true ∧
    ((checkRateLimit rate ip now).1 = true →
      (doPost apiKey (BodyInput.valid b) ip rate cache now up).upstreamCalled = true) := by
  have hget : getCached cache (sha256Hex p) now = some "" := by
    simp only [getCached, he]
    rw [if_pos hfresh, hempty]
  have hmain : doPost apiKey (BodyInput.valid b) ip rate cache now up =
      doPostAfterCache ip rate cache now up (sha256Hex p) := by
    simp [doPost, hk, hp, hpne, hget]
  refine ⟨hmain, ?_, ?_⟩
  · rw [hmain]
    exact (doPostAfterCache_flags ip rate cache now up (sha256Hex p)).2.1
  · intro h
    rw [hmain]
    exact (doPostAfterCache_flags ip rate cache now up (sha256Hex p)).2.2 h

/-- Witness for C10: a fresh empty-text entry, an admitting limiter, and the
upstream call is made. -/
theorem empty_cached_text_is_miss_witness :
    ¬ ("key" : String) = "" ∧
    (ReqBody.mk (some "hi") none).promptField = some "hi" ∧ ¬ ("hi" : String) = "" ∧
    lookupKey [(sha256Hex "hi", CacheEntry.mk "" 0)] (sha256Hex "hi") =
      some (CacheEntry.mk "" 0) ∧
    (1 : Int) - (CacheEntry.mk "" 0).ts < CACHE_TTL ∧ (CacheEntry.mk "" 0).text = "" ∧
    (doPost "key" (BodyInput.valid (ReqBody.mk (some "hi") none)) "c" []
        [(sha256Hex "hi", CacheEntry.mk "" 0)] 1 (Upstream.success none) =
      doPostAfterCache "c" [] [(sha256Hex "hi", CacheEntry.mk "" 0)] 1
        (Upstream.success none) (sha256Hex "hi") ∧
     (doPost "key" (BodyInput.valid (ReqBody.mk (some "hi") none)) "c" []
        [(sha256Hex "hi", CacheEntry.mk "" 0)] 1 (Upstream.success none)).rateLimiterCalled =
       true ∧
     ((checkRateLimit [] "c" 1).1 = true →
      (doPost "key" (BodyInput.valid (ReqBody.mk (some "hi") none)) "c" []
        [(sha256Hex "hi", CacheEntry.mk "" 0)] 1 (Upstream.success none)).upstreamCalled =
       true)) :=
  ⟨by decide, rfl, by decide, by simp [lookupKey], by decide, rfl,
    empty_cached_text_is_miss "key" (ReqBody.mk (some "hi") none) "c" []
      [(sha256Hex "hi", CacheEntry.mk "" 0)] 1 (Upstream.success none)
      (by decide) "hi" rfl (by decide) (CacheEntry.mk "" 0) (by simp [lookupKey])
      (by decide) rfl⟩

/-- C7 (amended): on a successful upstream response after a cache miss with
an admitting rate limiter, do_POST responds with the first content item
text field verbatim, including an empty string; the literal
"No response generated." is used exactly when the content field is absent
or the first item has no text field; an empty content list instead yields a
500 response carrying the IndexError message, with no cache write. -/
theorem upstream_text_extraction (apiKey : String) (b : ReqBody) (ip : String)
    (rate : RateStore) (cache : CacheStore) (now : Int)
    (content : Option (List (Option String)))
    (hk : ¬ apiKey = "") (p : String) (hp : b.promptField = some p) (hpne : ¬ p = "")
    (hmiss : getCached cache (sha256Hex p) now = none)
    (hadm : (checkRateLimit rate ip now).1 = true) :
    (∀ t rest, content = some (some t :: rest) →
      (doPost apiKey (BodyInput.valid b) ip rate cache now
        (Upstream.success content)).resp = ⟨200, RespBody.textField t⟩) ∧
    ((content = none ∨ ∃ rest, content = some (none :: rest)) →
      (doPost apiKey (BodyInput.valid b) ip rate cache now
        (Upstream.success content)).resp =
        ⟨200, RespBody.textField "No response generated."⟩) ∧
    (content = some [] →
      (doPost apiKey (BodyInput.valid b) ip rate cache now
        (Upstream.success content)).resp =
        ⟨500, RespBody.errorField "list index out of range"⟩ ∧
      (doPost apiKey (BodyInput.valid b) ip rate cache now
        (Upstream.success content)).cache = cache) := by
  have hmain : doPost apiKey (BodyInput.valid b) ip rate cache now
      (Upstream.success content) =
      doPostAfterCache ip rate cache now (Upstream.success content) (sha256Hex p) := by
    simp [doPost, hk, hp, hpne, hmiss]
  refine ⟨?_, ?_, ?_⟩
  · rintro t rest rfl
    simp [hmain, doPostAfterCache, hadm, extractText]
  · rintro (rfl | ⟨rest, rfl⟩) <;>
      simp [hmain, doPostAfterCache, hadm, extractText]
  · rintro rfl
    simp [hmain, doPostAfterCache, hadm, extractText]

/-- Witness for C7 (amended) at concrete upstream payloads. -/
theorem upstream_text_extraction_witness :
    ¬ ("key" : String) = "" ∧
    (ReqBody.mk (some "hi") none).promptField = some "hi" ∧ ¬ ("hi" : String) = "" ∧
    getCached [] (sha256Hex "hi") 0 = none ∧ (checkRateLimit [] "c" 0).1 = true ∧
    (∀ t rest, some [some "ok"] = some (some t :: rest) →
      (doPost "key" (BodyInput.valid (ReqBody.mk (some "hi") none)) "c" [] [] 0
        (Upstream.success (some [some "ok"]))).resp = ⟨200, RespBody.textField t⟩) :=
  ⟨by decide, rfl, by decide, rfl, by decide,
    (upstream_text_extraction "key" (ReqBody.mk (some "hi") none) "c" [] [] 0
      (some [some "ok"]) (by decide) "hi" rfl (by decide) rfl (by decide)).1⟩

/-- C7 counterexample: an upstream success whose first content item carries
an empty-string text field is answered 200 with the empty string, not with
the fallback literal. -/
theorem upstream_text_extraction_counterexample :
    (doPost "key" (BodyInput.valid (ReqBody.mk (some "hi") none)) "c" [] [] 0
        (Upstream.success (some [some ""]))).resp = ⟨200, RespBody.textField ""⟩ ∧
    RespBody.textField "" ≠ RespBody.textField "No response generated." := by
  constructor
  · have hrl : checkRateLimit [] "c" 0 = (true, [("c", RateRecord.mk 1 0)]) := by decide
    simp [doPost, getCached, lookupKey, doPostAfterCache, hrl, extractText]
  · decide

/-- C8: the local-server analyze handler lets the JSON parse error escape:
with a configured key and a request body that is not valid JSON,
Handler._handle_analyze of src/server.py raises json.JSONDecodeError
instead of answering with an error envelope, while the serverless handler
of src/api/analyze.py converts the same input to an envelope response. -/
theorem invalid_json_escapes_local_handler :
    handleAnalyze "key" BodyInput.invalid (Upstream.success none) =
      Except.error "json.JSONDecodeError" ∧
    doPost "key" BodyInput.invalid "c" [] [] 0 (Upstream.success none) =
      ⟨⟨400, RespBody.errorField "prompt is required"⟩, [], [], false, false, false⟩ := by
  constructor <;> rfl

end SuperbowlLX
